import Mathlib

/-
Verification of the detection-and-deduplication engine of vuln_watcher.py.

The Python source is shallowly embedded below.  Strings are modelled as
Lean strings (lists of characters); Python machine behaviour that the
engine relies on is translated explicitly:

* str.lower is modelled as ASCII case mapping (the concrete inputs used in
  the theorems contain only ASCII letters and precomposed lowercase
  accented letters, on which Python lower is the identity as well);
* regular expressions are translated into explicit scanning functions,
  with Python word characters modelled as ASCII alphanumerics, the
  underscore, and any non-ASCII character (faithful for the letter
  characters appearing in the inputs used here);
* rapidfuzz fuzz.partial_ratio(a, b) is modelled by its documented
  semantics: the best fuzz.ratio alignment of the shorter string inside
  the longer one, where fuzz.ratio is the indel similarity
  200 * lcs / (len1 + len2); the comparison against the integer threshold
  is kept in exact integer arithmetic, so no floating point is needed;
* CVSS scores of the shape digits.digit are represented by ten times
  their value as a natural number, which makes the threshold comparisons
  of infer_severity_from_cvss exact;
* hashlib.sha256(...).hexdigest() is implemented in full (FIPS 180-4)
  over the UTF-8 bytes of the input, with 32-bit words as naturals
  reduced modulo 2^32; the implementation is checked against the
  standard test vector for "abc".
-/

/-! ### Basic string machinery (Python semantics) -/

/-- Model of Python str.lower restricted to ASCII letters. -/
def lowerChar (c : Char) : Char :=
  if 65 ≤ c.toNat ∧ c.toNat ≤ 90 then Char.ofNat (c.toNat + 32) else c

/-- Lowercase a list of characters. -/
def lowerL (l : List Char) : List Char := l.map lowerChar

/-- Lowered character list of a string, as in text.lower(). -/
def lowerT (s : String) : List Char := lowerL s.toList

/-- Model of Python whitespace as stripped by str.strip(). -/
def isPySpace (c : Char) : Bool :=
  c == ' ' || c == '\t' || c == '\n' || c == '\r' || c.toNat == 11 || c.toNat == 12

/-- Model of Python str.strip(). -/
def pyStrip (l : List Char) : List Char :=
  ((l.dropWhile isPySpace).reverse.dropWhile isPySpace).reverse

/-- Stripped form of a string, as a string. -/
def pyStripS (s : String) : String := (pyStrip s.toList).asString

/-- Model of a Python word character as used by the word boundary of the
regular expressions: ASCII alphanumerics, underscore, and any non-ASCII
character (all non-ASCII characters occurring in the inputs used in this
development are letters). -/
def isWordChar (c : Char) : Bool := c.isAlphanum || c == '_' || decide (127 < c.toNat)

/-- ASCII digit test; coincides with the character class 0-9 of the
regular expressions in the source. -/
def isDigitC (c : Char) : Bool := decide (48 ≤ c.toNat) && decide (c.toNat ≤ 57)

/-- First index at which pat occurs as a contiguous sublist, scanning from
index i; model of Python str.find. -/
def firstIdxFrom (pat : List Char) : List Char → Nat → Option Nat
  | [], i => if pat = [] then some i else none
  | c :: tl, i =>
    if pat.isPrefixOf (c :: tl) then some i else firstIdxFrom pat tl (i + 1)

/-- Model of Python t.find(pat): index of the first occurrence, if any. -/
def firstIdx (t pat : List Char) : Option Nat := firstIdxFrom pat t 0

/-- Characters of text[a:b] for a text given as a string, with a already
clamped at zero (Python slicing clamps b at the length). -/
def sliceStr (text : String) (a b : Nat) : String :=
  ((text.toList.drop a).take (b - a)).asString

/-- Model of Python " ".join. -/
def joinSpace : List String → String
  | [] => ""
  | [s] => s
  | s :: rest => s ++ " " ++ joinSpace rest

/-- First-seen-order deduplication with an accumulator of already seen
elements; model of both the seen-set loop of parse_versions and
dict.fromkeys in extract_indicators. -/
def dedupAux (seen : List String) : List String → List String
  | [] => []
  | x :: xs => if x ∈ seen then dedupAux seen xs else x :: dedupAux (x :: seen) xs

/-- Scan indices i, i+1, ... while fuel lasts and return the first hit of f. -/
def scanFirstAux {α : Type} (f : Nat → Option α) : Nat → Nat → Option α
  | _, 0 => none
  | i, fuel + 1 =>
    match f i with
    | some v => some v
    | none => scanFirstAux f (i + 1) fuel

/-! ### rapidfuzz model -/

/-- Length of a longest common subsequence, computed by dynamic
programming over rows.  The row holds the values for all prefixes of b,
including the empty prefix. -/
def lcsRowGo (ca : Char) : List Char → List Nat → Nat → Nat → List Nat
  | [], _, _, cur => [cur]
  | cb :: bs, prev, diag, cur =>
    let up := prev.headD 0
    let v := if ca == cb then diag + 1 else Nat.max cur up
    cur :: lcsRowGo ca bs (prev.tail) up v

/-- One dynamic-programming row update for the longest common subsequence. -/
def lcsNewRow (ca : Char) (b : List Char) (prev : List Nat) : List Nat :=
  lcsRowGo ca b (prev.tail) (prev.headD 0) 0

/-- Longest common subsequence length of two character lists. -/
def lcsLen (a b : List Char) : Nat :=
  (a.foldl (fun prev ca => lcsNewRow ca b prev) (List.replicate (b.length + 1) 0)).getLastD 0

/-- All contiguous windows of length k of a character list. -/
def windowsL (k : Nat) : List Char → List (List Char)
  | [] => if k = 0 then [[]] else []
  | c :: tl => if (c :: tl).length < k then [] else (c :: tl).take k :: windowsL k tl

/-- Model of fuzz.partial_ratio(a, b) >= thr for an integer threshold thr:
the shorter string is aligned against every window of its length in the
longer string, and the indel ratio 200 * lcs / (la + lw) of some window
must reach the threshold.  The comparison is kept in exact integer
arithmetic. -/
def partialRatioGE (a b : List Char) (thr : Nat) : Bool :=
  let s := if a.length ≤ b.length then a else b
  let l := if a.length ≤ b.length then b else a
  (windowsL s.length l).any (fun w => decide (thr * (s.length + w.length) ≤ 200 * lcsLen s w))

/-! ### SHA-256 (hashlib.sha256(...).hexdigest() over UTF-8 bytes) -/

/-- Addition of 32-bit words represented as naturals. -/
def add32 (a b : Nat) : Nat := (a + b) % 4294967296

/-- Right rotation of a 32-bit word. -/
def rotr32 (n x : Nat) : Nat := ((x >>> n) ||| (x <<< (32 - n))) &&& 4294967295

/-- Bitwise complement of a 32-bit word. -/
def not32 (x : Nat) : Nat := 4294967295 ^^^ x

/-- Upper-case sigma-0 function of FIPS 180-4. -/
def bigSigma0 (x : Nat) : Nat := rotr32 2 x ^^^ rotr32 13 x ^^^ rotr32 22 x

/-- Upper-case sigma-1 function of FIPS 180-4. -/
def bigSigma1 (x : Nat) : Nat := rotr32 6 x ^^^ rotr32 11 x ^^^ rotr32 25 x

/-- Lower-case sigma-0 function of FIPS 180-4. -/
def smallSigma0 (x : Nat) : Nat := rotr32 7 x ^^^ rotr32 18 x ^^^ (x >>> 3)

/-- Lower-case sigma-1 function of FIPS 180-4. -/
def smallSigma1 (x : Nat) : Nat := rotr32 17 x ^^^ rotr32 19 x ^^^ (x >>> 10)

/-- Choice function of FIPS 180-4. -/
def chFn (e f g : Nat) : Nat := (e &&& f) ^^^ (not32 e &&& g)

/-- Majority function of FIPS 180-4. -/
def majFn (a b c : Nat) : Nat := (a &&& b) ^^^ (a &&& c) ^^^ (b &&& c)

/-- Round constants of SHA-256. -/
def K256 : List Nat :=
  [1116352408, 1899447441, 3049323471, 3921009573, 961987163, 1508970993,
   2453635748, 2870763221, 3624381080, 310598401, 607225278, 1426881987,
   1925078388, 2162078206, 2614888103, 3248222580, 3835390401, 4022224774,
   264347078, 604807628, 770255983, 1249150122, 1555081692, 1996064986,
   2554220882, 2821834349, 2952996808, 3210313671, 3336571891, 3584528711,
   113926993, 338241895, 666307205, 773529912, 1294757372, 1396182291,
   1695183700, 1986661051, 2177026350, 2456956037, 2730485921, 2820302411,
   3259730800, 3345764771, 3516065817, 3600352804, 4094571909, 275423344,
   430227734, 506948616, 659060556, 883997877, 958139571, 1322822218,
   1537002063, 1747873779, 1955562222, 2024104815, 2227730452, 2361852424,
   2428436474, 2756734187, 3204031479, 3329325298]

/-- Initial hash value of SHA-256. -/
def shaInit : List Nat :=
  [1779033703, 3144134277, 1013904242, 2773480762, 1359893119, 2600822924,
   528734635, 1541459225]

/-- UTF-8 encoding of one character. -/
def encodeChar (c : Char) : List Nat :=
  let n := c.toNat
  if n < 0x80 then [n]
  else if n < 0x800 then [0xC0 ||| (n >>> 6), 0x80 ||| (n &&& 0x3F)]
  else if n < 0x10000 then
    [0xE0 ||| (n >>> 12), 0x80 ||| ((n >>> 6) &&& 0x3F), 0x80 ||| (n &&& 0x3F)]
  else
    [0xF0 ||| (n >>> 18), 0x80 ||| ((n >>> 12) &&& 0x3F), 0x80 ||| ((n >>> 6) &&& 0x3F),
     0x80 ||| (n &&& 0x3F)]

/-- UTF-8 bytes of a string. -/
def utf8Bytes (s : String) : List Nat :=
  s.toList.foldr (fun c acc => encodeChar c ++ acc) []

/-- Big-endian byte decomposition of a natural number into k bytes. -/
def beBytes : Nat → Nat → List Nat
  | 0, _ => []
  | k + 1, n => (n >>> (8 * k)) % 256 :: beBytes k n

/-- SHA-256 message padding. -/
def padMsg (bytes : List Nat) : List Nat :=
  let l := bytes.length
  let zeros := (119 - l % 64) % 64
  bytes ++ [128] ++ List.replicate zeros 0 ++ beBytes 8 (8 * l)

/-- Big-endian 32-bit words of a byte list whose length is a multiple of 4. -/
def wordsOf : List Nat → List Nat
  | b0 :: b1 :: b2 :: b3 :: rest =>
    ((b0 <<< 24) ||| (b1 <<< 16) ||| (b2 <<< 8) ||| b3) :: wordsOf rest
  | _ => []

/-- Split a word list into blocks of sixteen words. -/
def chunk16 : Nat → List Nat → List (List Nat)
  | 0, _ => []
  | _, [] => []
  | fuel + 1, l => l.take 16 :: chunk16 fuel (l.drop 16)

/-- Message-schedule extension from 16 to 64 words. -/
def extendW (w16 : List Nat) : List Nat :=
  (List.range 48).foldl
    (fun w _ =>
      w ++ [add32 (add32 (smallSigma1 (w.getD (w.length - 2) 0)) (w.getD (w.length - 7) 0))
              (add32 (smallSigma0 (w.getD (w.length - 15) 0)) (w.getD (w.length - 16) 0))])
    w16

/-- One round of the SHA-256 compression function. -/
def roundStep (st : List Nat) (kw : Nat × Nat) : List Nat :=
  match st with
  | [a, b, c, d, e, f, g, h] =>
    let t1 := add32 h (add32 (bigSigma1 e) (add32 (chFn e f g) (add32 kw.1 kw.2)))
    let t2 := add32 (bigSigma0 a) (majFn a b c)
    [add32 t1 t2, a, b, c, add32 d t1, e, f, g]
  | _ => st

/-- Compression of one sixteen-word block into the running hash state. -/
def compressBlock (h : List Nat) (block : List Nat) : List Nat :=
  let st := (K256.zip (extendW block)).foldl roundStep h
  (h.zip st).map (fun p => add32 p.1 p.2)

/-- The eight 32-bit state words of the SHA-256 digest of a string. -/
def sha256Words (s : String) : List Nat :=
  let ws := wordsOf (padMsg (utf8Bytes s))
  (chunk16 (ws.length + 1) ws).foldl compressBlock shaInit

/-- Lowercase hexadecimal digit. -/
def hexDigit (n : Nat) : Char := if n < 10 then Char.ofNat (48 + n) else Char.ofNat (87 + n)

/-- Eight hexadecimal digits of a 32-bit word. -/
def hex8 (n : Nat) : List Char :=
  (List.range 8).map (fun i => hexDigit ((n >>> (28 - 4 * i)) &&& 15))

/-- Model of hashlib.sha256(s.encode("utf-8")).hexdigest(). -/
def sha256Hex (s : String) : String :=
  ((sha256Words s).foldr (fun w acc => hex8 w ++ acc) []).asString

/-- Sanity check of the SHA-256 model: standard test vector of FIPS 180-4. -/
theorem sha256Hex_abc :
    sha256Hex "abc" = "ba7816bf8f01cfea414140de5dae2223b00361a396177a9cb410ff61f20015ad" := by
  decide

/-! ### make_key (vuln_watcher.py line 192) -/

/-- Canonical concatenation hashed by make_key; the version component is
taken verbatim (Python writes version or two bars around the empty
string, which coincide on strings). -/
def keyInput (product version url entry_id : String) : String :=
  product ++ "||" ++ version ++ "||" ++ url ++ "||" ++ entry_id

/-- Model of make_key: SHA-256 hex digest of the canonical concatenation. -/
def make_key (product version url entry_id : String) : String :=
  sha256Hex (keyInput product version url entry_id)

/-! ### Configuration (DEFAULT_CONFIG of vuln_watcher.py) -/

/-- Configuration surface consumed by the engine: fuzzy threshold, minimal
product-name length for the fuzzy rescue, and the acceptance filters. -/
structure Cfg where
  threshold_fuzzy : Nat
  min_fuzzy_len : Nat
  min_severity : String
  require_cve : Bool
deriving DecidableEq

/-- Values of DEFAULT_CONFIG in the source. -/
def defaultCfg : Cfg := ⟨82, 5, "MEDIUM", true⟩

/-! ### Product matcher (_match_one and match_product_any_version) -/

/-- Normalised product name, product.lower().strip(). -/
def normName (product : String) : List Char := pyStrip (lowerL product.toList)

/-- Normalised version string, version.strip().lower(). -/
def verNorm (version : String) : List Char := lowerL (pyStrip version.toList)

/-- Model of _match_one(product, version, text).  Returns the match flag
and the evidence snippet. -/
def matchOne (c : Cfg) (product version text : String) : Bool × String :=
  if normName product = [] then (false, "")
  else
    match firstIdx (lowerT text) (normName product) with
    | some idx =>
      if version = "" ∨ pyStripS version = "" ∨ pyStripS version = "*" then
        (true, sliceStr text (idx - 120) (idx + (normName product).length + 120))
      else
        match firstIdx (lowerT text) (verNorm version) with
        | some j => (true, sliceStr text (j - 120) (j + (verNorm version).length + 120))
        | none => (false, "")
    | none =>
      if decide (c.min_fuzzy_len ≤ (normName product).length) &&
          partialRatioGE (normName product) ((lowerT text).take 4000) c.threshold_fuzzy then
        (true, (text.toList.take 600).asString)
      else (false, "")

/-- Try the listed versions in order; first success wins.  Returns the
snippet together with the winning version. -/
def tryVersions (c : Cfg) (product text : String) : List String → Option (String × String)
  | [] => none
  | v :: vs =>
    if (matchOne c product v text).1 then some ((matchOne c product v text).2, v)
    else tryVersions c product text vs

/-- Model of match_product_any_version(product, versions, text): the match
flag, the snippet, and the matched version (empty on the bare-product
fallback). -/
def match_product_any_version (c : Cfg) (product : String) (versions : List String)
    (text : String) : Bool × String × String :=
  match versions with
  | [] =>
    if (matchOne c product "" text).1 then (true, (matchOne c product "" text).2, "")
    else (false, "", "")
  | v :: vs =>
    match tryVersions c product text (v :: vs) with
    | some r => (true, r.1, r.2)
    | none =>
      if (matchOne c product "" text).1 then (true, (matchOne c product "" text).2, "")
      else (false, "", "")

/-! ### Indicator extraction (CVE_REGEX, SEV_TOKEN_RE, CVSS_REGEX) -/

/-- Word boundary immediately before index i. -/
def wordBoundaryBefore (lc : List Char) (i : Nat) : Bool :=
  decide (i = 0) || !isWordChar (lc.getD (i - 1) ' ')

/-- Word boundary immediately before index j, seen from the left side:
either the text ends at j or the character at j is not a word character. -/
def wordBoundaryAfter (lc : List Char) (j : Nat) : Bool :=
  decide (lc.length ≤ j) || !isWordChar (lc.getD j ' ')

/-- Length of the match of CVE_REGEX at index i of the lowered text, if
the pattern cve-dddd-d{4,7} with word boundaries matches there. -/
def cveMatchLen (lc : List Char) (i : Nat) : Option Nat :=
  if wordBoundaryBefore lc i && ((lc.drop i).take 4 == "cve-".toList) then
    let after := lc.drop (i + 4)
    if decide ((after.take 4).length = 4) && (after.take 4).all isDigitC &&
        (after.getD 4 ' ' == '-') then
      let r := ((after.drop 5).takeWhile isDigitC).length
      if decide (4 ≤ r) && decide (r ≤ 7) && wordBoundaryAfter lc (i + 9 + r) then
        some (9 + r)
      else none
    else none
  else none

/-- Left-to-right non-overlapping scan of CVE_REGEX.findall, emitting the
matched substrings of the original-case text. -/
def cveScanAux (orig lc : List Char) : Nat → Nat → List String
  | _, 0 => []
  | i, fuel + 1 =>
    if decide (lc.length ≤ i) then []
    else
      match cveMatchLen lc i with
      | some L => ((orig.drop i).take L).asString :: cveScanAux orig lc (i + L) fuel
      | none => cveScanAux orig lc (i + 1) fuel

/-- Model of CVE_REGEX.findall(combo). -/
def cveFindall (combo : String) : List String :=
  cveScanAux combo.toList (lowerT combo) 0 (combo.toList.length + 1)

/-- CVE list of extract_indicators: findall result deduplicated in
first-seen order (dict.fromkeys). -/
def cveListOf (combo : String) : List String := dedupAux [] (cveFindall combo)

/-- Severity keyword alternatives of SEV_TOKEN_RE, in alternation order. -/
def sevTokens : List String :=
  ["critical", "critica", "critico", "high", "alta", "alto",
   "medium", "media", "moderada", "low", "baja", "bajo"]

/-- Model of SEV_MAP lookup on a lowered keyword. -/
def sevLookup (tok : String) : String :=
  if tok = "critical" ∨ tok = "critica" ∨ tok = "critico" then "CRITICAL"
  else if tok = "high" ∨ tok = "alta" ∨ tok = "alto" then "HIGH"
  else if tok = "medium" ∨ tok = "media" ∨ tok = "moderada" then "MEDIUM"
  else if tok = "low" ∨ tok = "baja" ∨ tok = "bajo" then "LOW"
  else ""

/-- Match of one keyword alternative at index i with word boundaries on
both sides, on the lowered text. -/
def tokenAtB (lc : List Char) (i : Nat) (tok : String) : Bool :=
  wordBoundaryBefore lc i && ((lc.drop i).take tok.toList.length == tok.toList) &&
    wordBoundaryAfter lc (i + tok.toList.length)

/-- Keyword alternative matching at index i, if any (at most one
alternative can match at a given index because of the boundaries). -/
def sevTokenAt (lc : List Char) (i : Nat) : Option String :=
  sevTokens.find? (tokenAtB lc i)

/-- Model of SEV_TOKEN_RE.search: the keyword of the leftmost match. -/
def sevScan (lc : List Char) : Option String := scanFirstAux (sevTokenAt lc) 0 lc.length

/-- Match of CVSS_REGEX at index i of the lowered text: the literal cvss,
at most fifteen non-digit characters, one or two digits, a dot, one digit,
and a trailing word boundary.  Returns the captured score characters. -/
def cvssAt (lc : List Char) (i : Nat) : Option (List Char) :=
  if (lc.drop i).take 4 == "cvss".toList then
    let rest := lc.drop (i + 4)
    let gap := (rest.takeWhile (fun c => !isDigitC c)).length
    if decide (gap ≤ 15) then
      let ds := rest.drop gap
      let r := (ds.takeWhile isDigitC).length
      if decide (r = 1) then
        if (ds.getD 1 ' ' == '.') && isDigitC (ds.getD 2 ' ') &&
            wordBoundaryAfter lc (i + 4 + gap + 3) then some (ds.take 3)
        else none
      else if decide (r = 2) then
        if (ds.getD 2 ' ' == '.') && isDigitC (ds.getD 3 ' ') &&
            wordBoundaryAfter lc (i + 4 + gap + 4) then some (ds.take 4)
        else none
      else none
    else none
  else none

/-- Model of CVSS_REGEX.search: captured score of the leftmost match. -/
def cvssSearch (lc : List Char) : Option (List Char) := scanFirstAux (cvssAt lc) 0 lc.length

/-- Match of the CVSS pattern exactly as the specification words it: a
decimal score of the form one digit, dot, one digit.  This definition
follows the words of the specification and is used only to compare the
specified pattern with the implemented one. -/
def cvssAtSpec (lc : List Char) (i : Nat) : Option (List Char) :=
  if (lc.drop i).take 4 == "cvss".toList then
    let rest := lc.drop (i + 4)
    let gap := (rest.takeWhile (fun c => !isDigitC c)).length
    if decide (gap ≤ 15) then
      let ds := rest.drop gap
      let r := (ds.takeWhile isDigitC).length
      if decide (r = 1) then
        if (ds.getD 1 ' ' == '.') && isDigitC (ds.getD 2 ' ') &&
            wordBoundaryAfter lc (i + 4 + gap + 3) then some (ds.take 3)
        else none
      else none
    else none
  else none

/-- Leftmost match of the specification-worded CVSS pattern. -/
def cvssSearchSpec (lc : List Char) : Option (List Char) :=
  scanFirstAux (cvssAtSpec lc) 0 lc.length

/-- Value of a digit character. -/
def digitVal (c : Char) : Nat := c.toNat - 48

/-- Natural number denoted by a list of digit characters. -/
def natOfDigits (l : List Char) : Nat := l.foldl (fun a c => 10 * a + digitVal c) 0

/-- Ten times the value of a captured score of the shape digits.digit;
this integer representation makes the float comparisons of the source
exact for one-decimal scores. -/
def score10 (s : List Char) : Nat :=
  let ip := s.takeWhile isDigitC
  10 * natOfDigits ip + digitVal (s.getD (ip.length + 1) '0')

/-- Model of infer_severity_from_cvss on ten times the score: the
thresholds 9.0, 7.0 and 4.0 become 90, 70 and 40. -/
def infer_severity_from_cvss (v : Nat) : String :=
  if 90 ≤ v then "CRITICAL" else if 70 ≤ v then "HIGH" else if 40 ≤ v then "MEDIUM" else "LOW"

/-- Combined text of extract_indicators: the non-empty arguments joined
with single spaces. -/
def comboOf (texts : List String) : String :=
  joinSpace (texts.filter (fun s => !(s == "")))

/-- Severity keyword component of extract_indicators: canonical severity
of the leftmost keyword match, or the empty string. -/
def sevKeywordOf (combo : String) : String :=
  match sevScan (lowerT combo) with
  | some tok => sevLookup tok
  | none => ""

/-- CVSS component of extract_indicators: captured score characters of
the leftmost CVSS match, if any. -/
def cvssOf (combo : String) : Option (List Char) := cvssSearch (lowerT combo)

/-- Model of extract_indicators(*texts): the comma-joined CVE list, the
severity (keyword first, CVSS-derived fallback), and the CVSS score
string. -/
def extract_indicators (texts : List String) : String × String × String :=
  (String.intercalate ", " (cveListOf (comboOf texts)),
   match cvssOf (comboOf texts) with
   | none => sevKeywordOf (comboOf texts)
   | some s =>
     if sevKeywordOf (comboOf texts) = "" then infer_severity_from_cvss (score10 s)
     else sevKeywordOf (comboOf texts),
   match cvssOf (comboOf texts) with
   | none => ""
   | some s => s.asString)

/-! ### Acceptance policy (pass_filters) -/

/-- Model of SEV_RANK.get(s, d); the dictionary ranks LOW through
CRITICAL as 0 through 3. -/
def sevRankD (s : String) (d : Int) : Int :=
  if s = "LOW" then 0
  else if s = "MEDIUM" then 1
  else if s = "HIGH" then 2
  else if s = "CRITICAL" then 3
  else d

/-- ASCII uppercase of one character. -/
def upperChar (c : Char) : Char :=
  if 97 ≤ c.toNat ∧ c.toNat ≤ 122 then Char.ofNat (c.toNat - 32) else c

/-- ASCII uppercase of a string, str.upper() of the source. -/
def upperStr (s : String) : String := (s.toList.map upperChar).asString

/-- Model of pass_filters(cves, sev) under a configuration: reject on a
missing CVE when required, reject on a missing severity, otherwise
compare severity ranks. -/
def pass_filters (c : Cfg) (cves sev : String) : Bool :=
  if c.require_cve && (cves == "") then false
  else if sev == "" then false
  else decide (sevRankD (upperStr c.min_severity) 1 ≤ sevRankD sev (-1))

/-! ### Detection pipeline and dedup store (main, RSS branch, lines 319-335) -/

/-- One product row of the catalog. -/
structure CatalogItem where
  product : String
  editor : String
  versions : List String
deriving DecidableEq

/-- One text unit: a feed entry with its stable id, link, title and the
combined body text (an HTML page is the special case with empty id). -/
structure Entry where
  id : String
  link : String
  title : String
  body : String
deriving DecidableEq

/-- Persisted alert row (columns of the alerts table that the core
writes). -/
structure AlertRecord where
  key : String
  product : String
  editor : String
  version : String
  url : String
  source_name : String
  entry_id : String
  title : String
  severity : String
  cvss : String
  cve : String
deriving DecidableEq

/-- Terminal outcome of one (text unit, product) branch. -/
inductive Outcome where
  | noMatch
  | rejected
  | dup
  | novel
deriving DecidableEq

/-- Match flag of the matcher on this entry and product. -/
def matchOk (c : Cfg) (e : Entry) (item : CatalogItem) : Bool :=
  (match_product_any_version c item.product item.versions e.body).1

/-- Matched version reported by the matcher on this entry and product. -/
def matchedVersion (c : Cfg) (e : Entry) (item : CatalogItem) : String :=
  (match_product_any_version c item.product item.versions e.body).2.2

/-- Acceptance of the indicators extracted from the entry body. -/
def filtersOk (c : Cfg) (e : Entry) : Bool :=
  pass_filters c (extract_indicators [e.body]).1 (extract_indicators [e.body]).2.1

/-- Entry id persisted by main: the entry id, falling back to its link. -/
def entryIdOf (e : Entry) : String := if e.id = "" then e.link else e.id

/-- Dedup key computed by main for an accepted finding: the matched
version if non-empty, else the first listed version if the product has
one, else the empty string, hashed together with product name, source
url and entry id. -/
def entryKey (c : Cfg) (url : String) (e : Entry) (item : CatalogItem) : String :=
  make_key item.product
    (if matchedVersion c e item = "" then item.versions.headD "" else matchedVersion c e item)
    url (entryIdOf e)

/-- Alert row inserted by main for a novel accepted finding. -/
def newRecord (c : Cfg) (sourceName url : String) (e : Entry) (item : CatalogItem) :
    AlertRecord :=
  ⟨entryKey c url e item, item.product, item.editor, matchedVersion c e item,
   (if e.link = "" then url else e.link), sourceName, entryIdOf e, e.title,
   (extract_indicators [e.body]).2.1, (extract_indicators [e.body]).2.2,
   (extract_indicators [e.body]).1⟩

/-- Processing of one (entry, product) pair against the store: match,
filter, dedup-check, and insert on novelty, as in the RSS branch of
main. -/
def processEntryProduct (c : Cfg) (sourceName url : String) (e : Entry)
    (store : List AlertRecord) (item : CatalogItem) : Outcome × List AlertRecord :=
  if matchOk c e item = false then (Outcome.noMatch, store)
  else if filtersOk c e = false then (Outcome.rejected, store)
  else if store.any (fun r => r.key == entryKey c url e item) then (Outcome.dup, store)
  else (Outcome.novel, store ++ [newRecord c sourceName url e item])

/-- Sequential processing of a list of (entry, product) pairs, threading
the store. -/
def runSeq (c : Cfg) (sourceName url : String) (store : List AlertRecord)
    (runs : List (Entry × CatalogItem)) : List AlertRecord :=
  runs.foldl (fun s p => (processEntryProduct c sourceName url p.1 s p.2).2) store

/-! ### Helper lemmas -/

/-- Membership in the first-seen deduplication: exactly the elements of
the input that are not in the seen accumulator. -/
theorem dedupAux_mem (l : List String) :
    ∀ (seen : List String) (a : String), a ∈ dedupAux seen l ↔ a ∈ l ∧ a ∉ seen := by
  induction l with
  | nil => intro seen a; simp [dedupAux]
  | cons x xs ih =>
    intro seen a
    by_cases hx : x ∈ seen
    · by_cases hax : a = x
      · subst hax; simp [dedupAux, hx, ih]
      · simp [dedupAux, hx, ih, hax]
    · by_cases hax : a = x
      · subst hax; simp [dedupAux, hx, ih]
      · simp [dedupAux, hx, ih, hax]

/-- The first-seen deduplication never repeats an element. -/
theorem dedupAux_nodup (l : List String) : ∀ seen, (dedupAux seen l).Nodup := by
  induction l with
  | nil => intro seen; simp [dedupAux]
  | cons x xs ih =>
    intro seen
    by_cases hx : x ∈ seen
    · simpa [dedupAux, hx] using ih seen
    · have hd : dedupAux seen (x :: xs) = x :: dedupAux (x :: seen) xs := by
        simp [dedupAux, hx]
      rw [hd, List.nodup_cons]
      refine ⟨?_, ih (x :: seen)⟩
      intro hmem
      exact ((dedupAux_mem xs (x :: seen) x).1 hmem).2 (List.mem_cons_self x seen)

/-- The first-seen deduplication is a sublist of the input, hence it
preserves the first-seen order. -/
theorem dedupAux_sublist (l : List String) : ∀ seen, (dedupAux seen l).Sublist l := by
  induction l with
  | nil => intro seen; simp [dedupAux]
  | cons x xs ih =>
    intro seen
    by_cases hx : x ∈ seen
    · simp only [dedupAux, hx, if_pos]
      exact (ih seen).trans (List.sublist_cons_self x xs)
    · simp only [dedupAux, hx, if_neg]
      exact List.Sublist.cons₂ x (ih (x :: seen))

/-- A scan from index i returns the value of the first index at which the
scanned function fires, provided the fuel reaches it. -/
theorem scanFirstAux_first {α : Type} (f : Nat → Option α) (v : α) :
    ∀ (fuel i k : Nat), k < fuel → f (i + k) = some v →
      (∀ j, j < k → f (i + j) = none) → scanFirstAux f i fuel = some v := by
  intro fuel
  induction fuel with
  | zero => intro i k hk; exact absurd hk (Nat.not_lt_zero k)
  | succ n ih =>
    intro i k hk hv hnone
    cases k with
    | zero =>
      have : f i = some v := by simpa using hv
      simp [scanFirstAux, this]
    | succ m =>
      have h0 : f i = none := by simpa using hnone 0 (Nat.succ_pos m)
      simp only [scanFirstAux, h0]
      refine ih (i + 1) m (by omega) ?_ ?_
      · rw [show i + 1 + m = i + (m + 1) by omega]; exact hv
      · intro j hj
        rw [show i + 1 + j = i + (j + 1) by omega]
        exact hnone (j + 1) (by omega)

/-- A successful keyword match pins the index inside the text, belongs to
the alternation list, and maps to a non-empty canonical severity. -/
theorem sevTokenAt_some (lc : List Char) (i : Nat) (tok : String)
    (h : sevTokenAt lc i = some tok) :
    i < lc.length ∧ tok ∈ sevTokens ∧ sevLookup tok ≠ "" := by
  have hmem : tok ∈ sevTokens := List.mem_of_find?_eq_some h
  have hp : tokenAtB lc i tok = true := List.find?_some h
  have htake : (lc.drop i).take tok.toList.length = tok.toList := by
    simp only [tokenAtB, Bool.and_eq_true, beq_iff_eq] at hp
    exact hp.1.2
  have hlen : min tok.toList.length (lc.length - i) = tok.toList.length := by
    have := congrArg List.length htake
    simpa [List.length_take, List.length_drop] using this
  have hpos : 0 < tok.toList.length := by
    rcases (by simpa [sevTokens] using hmem :
        tok = "critical" ∨ tok = "critica" ∨ tok = "critico" ∨ tok = "high" ∨ tok = "alta" ∨
        tok = "alto" ∨ tok = "medium" ∨ tok = "media" ∨ tok = "moderada" ∨ tok = "low" ∨
        tok = "baja" ∨ tok = "bajo") with
      rfl|rfl|rfl|rfl|rfl|rfl|rfl|rfl|rfl|rfl|rfl|rfl <;> decide
  have hne : sevLookup tok ≠ "" := by
    rcases (by simpa [sevTokens] using hmem :
        tok = "critical" ∨ tok = "critica" ∨ tok = "critico" ∨ tok = "high" ∨ tok = "alta" ∨
        tok = "alto" ∨ tok = "medium" ∨ tok = "media" ∨ tok = "moderada" ∨ tok = "low" ∨
        tok = "baja" ∨ tok = "bajo") with
      rfl|rfl|rfl|rfl|rfl|rfl|rfl|rfl|rfl|rfl|rfl|rfl <;> decide
  exact ⟨by omega, hmem, hne⟩

/-- Joining a single non-empty text is that text. -/
theorem comboOf_single (t : String) (h : ¬t = "") : comboOf [t] = t := by
  have hb : (t == "") = false := by simpa using h
  simp [comboOf, List.filter, hb, joinSpace]

/-- Processing one (entry, product) pair never introduces a duplicated
key: an insert happens only after the existence check failed. -/
theorem process_preserves_nodup (c : Cfg) (sourceName url : String) (e : Entry)
    (store : List AlertRecord) (item : CatalogItem)
    (h : (store.map (fun r => r.key)).Nodup) :
    (((processEntryProduct c sourceName url e store item).2).map (fun r => r.key)).Nodup := by
  unfold processEntryProduct
  split
  · exact h
  · split
    · exact h
    · split
      · exact h
      · rename_i hm hf hany
        simp only [List.map_append, List.map_cons, List.map_nil]
        rw [List.nodup_append]
        refine ⟨h, List.nodup_singleton _, ?_⟩
        intro k hk hk1
        simp only [List.mem_map] at hk
        rcases hk with ⟨r, hr, rfl⟩
        simp only [List.mem_singleton] at hk1
        have : r.key ≠ entryKey c url e item := by
          intro hkey
          exact hany (by
            refine List.any_eq_true.2 ⟨r, hr, ?_⟩
            simpa using hkey)
        exact this (by simpa [newRecord] using hk1)

/-- Any sequence of pipeline steps preserves the uniqueness of keys in
the store. -/
theorem runSeq_nodup (c : Cfg) (sourceName url : String) :
    ∀ (runs : List (Entry × CatalogItem)) (store : List AlertRecord),
      (store.map (fun r => r.key)).Nodup →
      ((runSeq c sourceName url store runs).map (fun r => r.key)).Nodup := by
  intro runs
  induction runs with
  | nil => intro store h; simpa [runSeq] using h
  | cons p ps ih =>
    intro store h
    have hstep := process_preserves_nodup c sourceName url p.1 store p.2 h
    simpa [runSeq, List.foldl_cons] using ih _ hstep

/-- A novel outcome forces all three guarding conditions and determines
the updated store: match succeeded, filters passed, the key was absent,
and the new record was appended. -/
theorem process_novel_eq (c : Cfg) (sourceName url : String) (e : Entry)
    (store : List AlertRecord) (item : CatalogItem)
    (h : (processEntryProduct c sourceName url e store item).1 = Outcome.novel) :
    ¬matchOk c e item = false ∧ ¬filtersOk c e = false ∧
    ¬store.any (fun r => r.key == entryKey c url e item) = true ∧
    (processEntryProduct c sourceName url e store item).2 =
      store ++ [newRecord c sourceName url e item] := by
  unfold processEntryProduct at h
  split at h
  · exact absurd h (by simp)
  · split at h
    · exact absurd h (by simp)
    · split at h
      · exact absurd h (by simp)
      · rename_i h1 h2 h3
        refine ⟨h1, h2, h3, ?_⟩
        simp only [processEntryProduct, if_neg h1, if_neg h2, if_neg h3]

/-! ### Claims -/

/-- Claim C1 (counterexample).  The claim states that every accepted
finding is keyed by the SHA-256 digest of (product name, matched version
or empty, source url, entry id), so that a match with an empty
matched_version is keyed with an empty version component.  On the entry
body "Acme critical CVE-2024-0001" and the product Acme with version list
["9.9"], the matcher succeeds through the bare-product fallback with
matched_version empty, the policy accepts, and main persists a record
whose key hashes the first listed version 9.9 instead of the empty
string: the persisted key differs from the key the claim prescribes. -/
theorem c1_counterexample :
    (processEntryProduct defaultCfg "S" "u" ⟨"e", "l", "T", "Acme critical CVE-2024-0001"⟩ []
        ⟨"Acme", "Ed", ["9.9"]⟩).1 = Outcome.novel ∧
    ((processEntryProduct defaultCfg "S" "u" ⟨"e", "l", "T", "Acme critical CVE-2024-0001"⟩ []
        ⟨"Acme", "Ed", ["9.9"]⟩).2.map (fun r => (r.version, r.key))) =
      [("", make_key "Acme" "9.9" "u" "e")] ∧
    make_key "Acme" "9.9" "u" "e" ≠ make_key "Acme" "" "u" "e" := by
  refine ⟨by decide, by decide, by decide⟩

/-- Claim C1 (amended).  For every accepted novel finding, the persisted
record is appended to the store, carries the matched version verbatim,
and its key is the SHA-256 digest of the canonical concatenation whose
version component is the matched version when non-empty and otherwise
the first listed version of the product (the empty string only when the
product lists no versions); the url component is the source url and the
entry id component falls back from the entry id to its link. -/
theorem c1_amended (c : Cfg) (sourceName url : String) (e : Entry)
    (store : List AlertRecord) (item : CatalogItem)
    (h : (processEntryProduct c sourceName url e store item).1 = Outcome.novel) :
    (processEntryProduct c sourceName url e store item).2 =
      store ++ [newRecord c sourceName url e item] ∧
    (newRecord c sourceName url e item).version = matchedVersion c e item ∧
    (newRecord c sourceName url e item).key =
      make_key item.product
        (if matchedVersion c e item = "" then item.versions.headD ""
         else matchedVersion c e item)
        url (entryIdOf e) := by
  exact ⟨(process_novel_eq c sourceName url e store item h).2.2.2, rfl, rfl⟩

/-- Witness for the amended claim C1: a concrete novel finding with a
confirmed version 3.0; the theorem applies and the inserted record hashes
that version. -/
theorem c1_witness :
    (processEntryProduct defaultCfg "S" "u" ⟨"e2", "l2", "T2", "Acme 3.0 critical CVE-2024-0002"⟩
        [] ⟨"Acme", "Ed", ["3.0"]⟩).2 =
      [] ++ [newRecord defaultCfg "S" "u" ⟨"e2", "l2", "T2", "Acme 3.0 critical CVE-2024-0002"⟩
        ⟨"Acme", "Ed", ["3.0"]⟩] ∧
    (newRecord defaultCfg "S" "u" ⟨"e2", "l2", "T2", "Acme 3.0 critical CVE-2024-0002"⟩
        ⟨"Acme", "Ed", ["3.0"]⟩).version =
      matchedVersion defaultCfg ⟨"e2", "l2", "T2", "Acme 3.0 critical CVE-2024-0002"⟩
        ⟨"Acme", "Ed", ["3.0"]⟩ ∧
    (newRecord defaultCfg "S" "u" ⟨"e2", "l2", "T2", "Acme 3.0 critical CVE-2024-0002"⟩
        ⟨"Acme", "Ed", ["3.0"]⟩).key =
      make_key "Acme"
        (if matchedVersion defaultCfg ⟨"e2", "l2", "T2", "Acme 3.0 critical CVE-2024-0002"⟩
              ⟨"Acme", "Ed", ["3.0"]⟩ = ""
         then (["3.0"] : List String).headD ""
         else matchedVersion defaultCfg ⟨"e2", "l2", "T2", "Acme 3.0 critical CVE-2024-0002"⟩
                ⟨"Acme", "Ed", ["3.0"]⟩)
        "u" (entryIdOf ⟨"e2", "l2", "T2", "Acme 3.0 critical CVE-2024-0002"⟩) :=
  c1_amended defaultCfg "S" "u" ⟨"e2", "l2", "T2", "Acme 3.0 critical CVE-2024-0002"⟩ []
    ⟨"Acme", "Ed", ["3.0"]⟩ (by decide)

/-- Claim C2 (counterexample).  The claim states that a match is reported
for a non-empty non-wildcard version only if the version occurs
case-insensitively in the text.  For the product AcmeProduct with version
list ["9.9"] and the text "Acme", the product name does not occur exactly
but the fuzzy rescue fires (the four-character text aligns perfectly
inside the eleven-character name), so the matcher reports a match with
matched_version 9.9 although 9.9 occurs nowhere in the text; the snippet
is the first 600 characters of the text, not a window around a version
occurrence. -/
theorem c2_counterexample :
    match_product_any_version defaultCfg "AcmeProduct" ["9.9"] "Acme" = (true, "Acme", "9.9") ∧
    firstIdx (lowerT "Acme") (verNorm "9.9") = none ∧
    firstIdx (lowerT "Acme") "9.9".toList = none := by
  refine ⟨by decide, by decide, by decide⟩

/-- Claim C2 (amended).  For a non-empty non-wildcard version, a reported
match either confirms the version — the version string occurs in the
lowered text and the snippet is the fixed 120-character context window
around its first occurrence — or goes through the fuzzy rescue, in which
case the product name does not occur exactly in the text and the snippet
is the first 600 characters of the text, the version being reported
without occurring. -/
theorem c2_amended (c : Cfg) (product version text : String)
    (hv : ¬(version = "" ∨ pyStripS version = "" ∨ pyStripS version = "*"))
    (h : (matchOne c product version text).1 = true) :
    (∃ j, firstIdx (lowerT text) (verNorm version) = some j ∧
        (matchOne c product version text).2 =
          sliceStr text (j - 120) (j + (verNorm version).length + 120)) ∨
    (firstIdx (lowerT text) (normName product) = none ∧
        (matchOne c product version text).2 = (text.toList.take 600).asString) := by
  by_cases h0 : normName product = []
  · simp [matchOne, h0] at h
  · rcases hfi : firstIdx (lowerT text) (normName product) with _ | idx
    · cases hb : (decide (c.min_fuzzy_len ≤ (normName product).length) &&
          partialRatioGE (normName product) ((lowerT text).take 4000) c.threshold_fuzzy) with
      | false => simp [matchOne, h0, hfi, hb] at h
      | true => exact Or.inr ⟨rfl, by simp [matchOne, h0, hfi, hb]⟩
    · rcases hfv : firstIdx (lowerT text) (verNorm version) with _ | j
      · simp [matchOne, h0, hfi, hv, hfv] at h
      · exact Or.inl ⟨j, rfl, by simp [matchOne, h0, hfi, hv, hfv]⟩

/-- Witness for the amended claim C2: the confirmed-version branch on the
text "Acme 3.0 bad" with version 3.0. -/
theorem c2_witness :
    (∃ j, firstIdx (lowerT "Acme 3.0 bad") (verNorm "3.0") = some j ∧
        (matchOne defaultCfg "Acme" "3.0" "Acme 3.0 bad").2 =
          sliceStr "Acme 3.0 bad" (j - 120) (j + (verNorm "3.0").length + 120)) ∨
    (firstIdx (lowerT "Acme 3.0 bad") (normName "Acme") = none ∧
        (matchOne defaultCfg "Acme" "3.0" "Acme 3.0 bad").2 =
          ("Acme 3.0 bad".toList.take 600).asString) :=
  c2_amended defaultCfg "Acme" "3.0" "Acme 3.0 bad" (by decide) (by decide)


/-- Claim C3.  Running the same text unit through the pipeline twice
against the same store yields a novel outcome followed by a duplicate
outcome for the same (product, version) pair, the second run leaving the
store unchanged; and after any sequence of pipeline steps the store never
holds two records with the same alert key. -/
theorem c3 (c : Cfg) (sourceName url : String) (e : Entry) (item : CatalogItem)
    (store : List AlertRecord) :
    ((processEntryProduct c sourceName url e store item).1 = Outcome.novel →
      (processEntryProduct c sourceName url e
          (processEntryProduct c sourceName url e store item).2 item).1 = Outcome.dup ∧
      (processEntryProduct c sourceName url e
          (processEntryProduct c sourceName url e store item).2 item).2 =
        (processEntryProduct c sourceName url e store item).2) ∧
    ((store.map (fun r => r.key)).Nodup →
      ∀ runs : List (Entry × CatalogItem),
        ((runSeq c sourceName url store runs).map (fun r => r.key)).Nodup) := by
  constructor
  · intro h
    obtain ⟨h1, h2, _, hs⟩ := process_novel_eq c sourceName url e store item h
    have hany : ((store ++ [newRecord c sourceName url e item]).any
        (fun r => r.key == entryKey c url e item)) = true := by
      rw [List.any_append]
      refine Bool.or_eq_true_iff.2 (Or.inr ?_)
      simp [newRecord]
    rw [hs]
    constructor
    · simp only [processEntryProduct, if_neg h1, if_neg h2, hany, if_pos, if_true]
    · simp only [processEntryProduct, if_neg h1, if_neg h2, hany, if_pos, if_true]
  · intro h runs
    exact runSeq_nodup c sourceName url runs store h

/-- Witness for claim C3: on an empty store, a concrete feed entry and
product yield a novel outcome, and reprocessing the same entry yields a
duplicate. -/
theorem c3_witness :
    (processEntryProduct defaultCfg "S" "u"
        ⟨"e1", "l", "T", "Acme 3.0 critical CVE-2024-0001"⟩ []
        ⟨"Acme", "Ed", ["2.0", "3.0"]⟩).1 = Outcome.novel ∧
    (processEntryProduct defaultCfg "S" "u"
        ⟨"e1", "l", "T", "Acme 3.0 critical CVE-2024-0001"⟩
        (processEntryProduct defaultCfg "S" "u"
          ⟨"e1", "l", "T", "Acme 3.0 critical CVE-2024-0001"⟩ []
          ⟨"Acme", "Ed", ["2.0", "3.0"]⟩).2
        ⟨"Acme", "Ed", ["2.0", "3.0"]⟩).1 = Outcome.dup := by
  have h : (processEntryProduct defaultCfg "S" "u"
      ⟨"e1", "l", "T", "Acme 3.0 critical CVE-2024-0001"⟩ []
      ⟨"Acme", "Ed", ["2.0", "3.0"]⟩).1 = Outcome.novel := by decide
  exact ⟨h, ((c3 defaultCfg "S" "u" ⟨"e1", "l", "T", "Acme 3.0 critical CVE-2024-0001"⟩
    ⟨"Acme", "Ed", ["2.0", "3.0"]⟩ []).1 h).1⟩

/-- Claim C4.  Version fallback correctness of the matcher: with product
Acme and versions ["2.0", "3.0"], the text "Acme 3.0 critical flaw
CVE-2024-1234" is matched with matched_version 3.0 (the first listed
version that occurs wins), and the text "Acme has issues" without any
version token is still matched through the empty-version fallback with an
empty matched_version. -/
theorem c4 :
    match_product_any_version defaultCfg "Acme" ["2.0", "3.0"]
        "Acme 3.0 critical flaw CVE-2024-1234" =
      (true, "Acme 3.0 critical flaw CVE-2024-1234", "3.0") ∧
    match_product_any_version defaultCfg "Acme" ["2.0", "3.0"] "Acme has issues" =
      (true, "Acme has issues", "") := by
  refine ⟨by decide, by decide⟩

/-- Claim C5.  The acceptance policy rejects when a CVE is required but
none was extracted, rejects when no severity was determined, and
otherwise accepts exactly when the severity rank (LOW = 0 through
CRITICAL = 3) reaches the configured minimum rank; in particular, an
extraction with no CVE and severity HIGH is rejected under require_cve
and accepted without it under the default MEDIUM minimum. -/
theorem c5 (rc : Bool) (ms cves sev : String)
    (hms : ms = "LOW" ∨ ms = "MEDIUM" ∨ ms = "HIGH" ∨ ms = "CRITICAL") :
    (rc = true → cves = "" → pass_filters ⟨82, 5, ms, rc⟩ cves sev = false) ∧
    (sev = "" → pass_filters ⟨82, 5, ms, rc⟩ cves sev = false) ∧
    ((sev = "LOW" ∨ sev = "MEDIUM" ∨ sev = "HIGH" ∨ sev = "CRITICAL") →
      (rc = false ∨ ¬cves = "") →
      (pass_filters ⟨82, 5, ms, rc⟩ cves sev = true ↔ sevRankD ms 1 ≤ sevRankD sev (-1))) ∧
    pass_filters ⟨82, 5, "MEDIUM", true⟩ "" "HIGH" = false ∧
    pass_filters ⟨82, 5, "MEDIUM", false⟩ "" "HIGH" = true := by
  refine ⟨?_, ?_, ?_, by decide, by decide⟩
  · intro hrc hcv
    subst hrc; subst hcv
    simp [pass_filters]
  · intro hsev
    subst hsev
    rcases hms with rfl | rfl | rfl | rfl <;>
      cases rc <;> by_cases hcv : cves = "" <;>
        simp [pass_filters, hcv]
  · intro hsev hok
    have hcve : (rc && (cves == "")) = false := by
      rcases hok with rfl | hok
      · rfl
      · simp [hok]
    have hup : upperStr ms = ms := by
      rcases hms with rfl | rfl | rfl | rfl <;> decide
    have hsne : (sev == "") = false := by
      rcases hsev with rfl | rfl | rfl | rfl <;> decide
    simp [pass_filters, hcve, hsne, hup]

/-- Witness for claim C5 at the default configuration values. -/
theorem c5_witness :
    (true = true → "" = "" → pass_filters ⟨82, 5, "MEDIUM", true⟩ "" "HIGH" = false) ∧
    ("HIGH" = "" → pass_filters ⟨82, 5, "MEDIUM", true⟩ "" "HIGH" = false) ∧
    (("HIGH" = "LOW" ∨ "HIGH" = "MEDIUM" ∨ "HIGH" = "HIGH" ∨ "HIGH" = "CRITICAL") →
      (true = false ∨ ¬("" : String) = "") →
      (pass_filters ⟨82, 5, "MEDIUM", true⟩ "" "HIGH" = true ↔
        sevRankD "MEDIUM" 1 ≤ sevRankD "HIGH" (-1))) ∧
    pass_filters ⟨82, 5, "MEDIUM", true⟩ "" "HIGH" = false ∧
    pass_filters ⟨82, 5, "MEDIUM", false⟩ "" "HIGH" = true :=
  c5 true "MEDIUM" "" "HIGH" (Or.inr (Or.inl rfl))

/-- Claim C6.  Severity monotonicity of the acceptance policy: for two
configurations that differ only in the minimum severity, with the second
strictly higher, every extraction accepted under the higher minimum is
accepted under the lower one. -/
theorem c6 (rc : Bool) (ms1 ms2 cves sev : String)
    (hm1 : ms1 = "LOW" ∨ ms1 = "MEDIUM" ∨ ms1 = "HIGH" ∨ ms1 = "CRITICAL")
    (hm2 : ms2 = "LOW" ∨ ms2 = "MEDIUM" ∨ ms2 = "HIGH" ∨ ms2 = "CRITICAL")
    (hlt : sevRankD ms1 1 < sevRankD ms2 1)
    (h : pass_filters ⟨82, 5, ms2, rc⟩ cves sev = true) :
    pass_filters ⟨82, 5, ms1, rc⟩ cves sev = true := by
  simp only [pass_filters] at h ⊢
  cases hb : (rc && (cves == "")) with
  | true => rw [hb] at h; exact absurd h (by simp)
  | false =>
    rw [hb] at h
    cases hsb : (sev == "") with
    | true => rw [hsb] at h; exact absurd h (by simp)
    | false =>
      rw [hsb] at h
      simp only [Bool.false_eq_true, if_false, decide_eq_true_eq] at h ⊢
      have hup1 : upperStr ms1 = ms1 := by
        rcases hm1 with rfl | rfl | rfl | rfl <;> decide
      have hup2 : upperStr ms2 = ms2 := by
        rcases hm2 with rfl | rfl | rfl | rfl <;> decide
      rw [hup2] at h
      rw [hup1]
      omega

/-- Witness for claim C6: acceptance under minimum HIGH implies
acceptance under minimum MEDIUM for a CRITICAL finding. -/
theorem c6_witness :
    pass_filters ⟨82, 5, "MEDIUM", false⟩ "" "CRITICAL" = true :=
  c6 false "MEDIUM" "HIGH" "" "CRITICAL" (Or.inr (Or.inl rfl)) (Or.inr (Or.inr (Or.inl rfl)))
    (by decide) (by decide)

/-- Claim C7 (counterexample).  The claim states that the accented
Spanish keyword in the text "vulnerabilidad crítica detectada" yields
severity CRITICAL.  The alternation of SEV_TOKEN_RE contains only the
unaccented spellings, and neither the accented word nor any other
substring of this text matches an alternative, so extraction returns no
severity at all (and no CVE and no CVSS score either). -/
theorem c7_counterexample :
    (extract_indicators ["vulnerabilidad crítica detectada"]).2.1 ≠ "CRITICAL" ∧
    extract_indicators ["vulnerabilidad crítica detectada"] = ("", "", "") := by
  refine ⟨by decide, by decide⟩

/-- Claim C7 (amended).  Severity extraction scans for the first
occurrence of a severity keyword token among the unaccented English and
Spanish forms critical, critica, critico, high, alta, alto, medium,
media, moderada, low, baja and bajo, and maps it to the canonical
four-level enumeration; the keyword wins over any CVSS-derived fallback.
In particular a text containing the unaccented Spanish keyword critica
(and no earlier severity token) yields severity CRITICAL. -/
theorem c7_amended (t : String) (i : Nat) (tok : String)
    (ht : ¬t = "")
    (h : sevTokenAt (lowerT t) i = some tok)
    (hfirst : ∀ j, j < i → sevTokenAt (lowerT t) j = none) :
    (extract_indicators [t]).2.1 = sevLookup tok ∧ ¬sevLookup tok = "" ∧
    (extract_indicators ["fallo critica grave"]).2.1 = "CRITICAL" := by
  obtain ⟨hi, hmem, hne⟩ := sevTokenAt_some (lowerT t) i tok h
  have hscan : sevScan (lowerT t) = some tok :=
    scanFirstAux_first (sevTokenAt (lowerT t)) tok (lowerT t).length 0 i hi
      (by simpa using h) (by simpa using hfirst)
  have hcombo : comboOf [t] = t := comboOf_single t ht
  have hkw : sevKeywordOf (comboOf [t]) = sevLookup tok := by
    rw [hcombo]
    simp [sevKeywordOf, hscan]
  refine ⟨?_, hne, by decide⟩
  cases hc : cvssOf (comboOf [t]) with
  | none => simp [extract_indicators, hc, hkw]
  | some s => simp [extract_indicators, hc, hkw, hne]

/-- Witness for the amended claim C7: the keyword critica at index 6 of
"fallo critica grave" is the first severity token and yields CRITICAL. -/
theorem c7_witness :
    (extract_indicators ["fallo critica grave"]).2.1 = sevLookup "critica" ∧
    ¬sevLookup "critica" = "" ∧
    (extract_indicators ["fallo critica grave"]).2.1 = "CRITICAL" :=
  c7_amended "fallo critica grave" 6 "critica" (by decide) (by decide)
    (by decide)

/-- Claim C8 (counterexample).  The claim describes the CVSS pattern as
one digit, a dot, one digit.  The implemented pattern allows one or two
digits before the dot: on the text "CVSS 10.0" the specification-worded
pattern finds nothing, while the implementation extracts the score 10.0
and, with no severity keyword present, derives severity CRITICAL from
it. -/
theorem c8_counterexample :
    extract_indicators ["CVSS 10.0"] = ("", "CRITICAL", "10.0") ∧
    cvssSearchSpec (lowerT "CVSS 10.0") = none ∧
    cvssSearch (lowerT "CVSS 10.0") = some ['1', '0', '.', '0'] := by
  refine ⟨by decide, by decide, by decide⟩

/-- Claim C8 (amended).  CVSS extraction takes the first occurrence of
cvss followed within a window of at most fifteen non-digit characters by
a decimal score of the form one or two digits, dot, one digit; whenever
no severity keyword is found but a CVSS score is present, the severity is
derived by the fixed thresholds 9.0, 7.0 and 4.0 (represented as 90, 70
and 40 on ten times the score): at least 9.0 gives CRITICAL, at least 7.0
gives HIGH, at least 4.0 gives MEDIUM, and anything lower gives LOW; in
particular a text containing only "CVSS 9.2" yields CRITICAL and only
"CVSS 5.0" yields MEDIUM. -/
theorem c8_amended (t : String) (s : List Char) (n : Nat)
    (hc : cvssOf (comboOf [t]) = some s)
    (hs : sevScan (lowerT (comboOf [t])) = none) :
    (extract_indicators [t]).2.1 = infer_severity_from_cvss (score10 s) ∧
    (extract_indicators [t]).2.2 = s.asString ∧
    (90 ≤ n → infer_severity_from_cvss n = "CRITICAL") ∧
    (70 ≤ n → n < 90 → infer_severity_from_cvss n = "HIGH") ∧
    (40 ≤ n → n < 70 → infer_severity_from_cvss n = "MEDIUM") ∧
    (n < 40 → infer_severity_from_cvss n = "LOW") ∧
    extract_indicators ["CVSS 9.2"] = ("", "CRITICAL", "9.2") ∧
    extract_indicators ["CVSS 5.0"] = ("", "MEDIUM", "5.0") := by
  have hkw : sevKeywordOf (comboOf [t]) = "" := by
    simp [sevKeywordOf, hs]
  refine ⟨?_, ?_, ?_, ?_, ?_, ?_, by decide, by decide⟩
  · simp [extract_indicators, hc, hkw]
  · simp [extract_indicators, hc]
  · intro h1; simp [infer_severity_from_cvss, h1]
  · intro h1 h2
    simp [infer_severity_from_cvss, h1, show ¬90 ≤ n by omega]
  · intro h1 h2
    simp [infer_severity_from_cvss, h1, show ¬90 ≤ n by omega, show ¬70 ≤ n by omega]
  · intro h1
    simp [infer_severity_from_cvss, show ¬90 ≤ n by omega, show ¬70 ≤ n by omega,
      show ¬40 ≤ n by omega]

/-- Witness for the amended claim C8: the text "CVSS 9.2" with no
severity keyword, score characters 9.2, and the threshold value 92. -/
theorem c8_witness :
    ((extract_indicators ["CVSS 9.2"]).2.1 =
      infer_severity_from_cvss (score10 ['9', '.', '2'])) ∧
    (extract_indicators ["CVSS 9.2"]).2.2 = (['9', '.', '2'] : List Char).asString ∧
    (90 ≤ 92 → infer_severity_from_cvss 92 = "CRITICAL") ∧
    (70 ≤ 92 → 92 < 90 → infer_severity_from_cvss 92 = "HIGH") ∧
    (40 ≤ 92 → 92 < 70 → infer_severity_from_cvss 92 = "MEDIUM") ∧
    (92 < 40 → infer_severity_from_cvss 92 = "LOW") ∧
    extract_indicators ["CVSS 9.2"] = ("", "CRITICAL", "9.2") ∧
    extract_indicators ["CVSS 5.0"] = ("", "MEDIUM", "5.0") :=
  c8_amended "CVSS 9.2" ['9', '.', '2'] 92 (by decide) (by decide)

/-- Claim C9.  CVE extraction returns the substrings of the text matching
the case-insensitive pattern CVE, four-digit year, four-to-seven-digit
sequence number, deduplicated preserving first-seen order: the output has
no duplicate element, contains exactly the strings found by the scan, and
is a sublist of the scan result (hence keeps its order); the comma-joined
first component of extract_indicators is built from this list. -/
theorem c9 (t : String) :
    (cveListOf t).Nodup ∧
    (∀ s, s ∈ cveListOf t ↔ s ∈ cveFindall t) ∧
    (cveListOf t).Sublist (cveFindall t) ∧
    cveListOf "CVE-2024-1234 and CVE-2024-1234 and cve-2025-99999" =
      ["CVE-2024-1234", "cve-2025-99999"] ∧
    (extract_indicators [t]).1 = String.intercalate ", " (cveListOf (comboOf [t])) := by
  refine ⟨dedupAux_nodup _ _, ?_, dedupAux_sublist _ _, by decide, rfl⟩
  intro s
  rw [cveListOf, dedupAux_mem]
  simp

/-- Claim C10.  When the product name does not occur as a
case-insensitive substring of the text, the matcher reduces to the fuzzy
rescue, which compares the normalised name only against the first 4000
characters of the lowered text and on success returns the first 600
characters of the text as the snippet; consequently, whenever the fuzzy
similarity over those first 4000 characters stays below the threshold —
in particular when the only fuzzy-similar mention begins after character
4000 — the matcher returns no match. -/
theorem c10 (c : Cfg) (product version text : String)
    (h0 : ¬normName product = [])
    (hfi : firstIdx (lowerT text) (normName product) = none) :
    matchOne c product version text =
      (if decide (c.min_fuzzy_len ≤ (normName product).length) &&
          partialRatioGE (normName product) ((lowerT text).take 4000) c.threshold_fuzzy
       then (true, (text.toList.take 600).asString) else (false, "")) ∧
    (partialRatioGE (normName product) ((lowerT text).take 4000) c.threshold_fuzzy = false →
      matchOne c product version text = (false, "")) := by
  constructor
  · simp [matchOne, h0, hfi]
  · intro hr
    simp [matchOne, h0, hfi, hr]

/-- Witness for claim C10: the name Zebra is long enough for the fuzzy
rescue but stays below the threshold on the text, so the matcher returns
no match. -/
theorem c10_witness :
    matchOne defaultCfg "Zebra" "" "qqqqqq qqq zzz" = (false, "") :=
  (c10 defaultCfg "Zebra" "" "qqqqqq qqq zzz" (by decide) (by decide)).2 (by decide)
